import Mathlib

/-!
Verification development for the VaultMigrate conversion engine.

The definitions below are a shallow embedding of the TypeScript source:
the naming resolver (`src/utils/fileUtils.ts`), the property mapper and
orchestrator (`src/core/markdownCreation.ts`), the block renderer
(`fetchBlockContent` / `extractContentFromPage` in `notionHandling`),
and the start/stop control handlers (`src/ui/NotionMigrationSettingTab.ts`).
External capabilities (the remote fetch-by-id client, the binary
downloader, the file system) are passed in as explicit function or list
parameters; machine side effects (started writes, network fetches) are
returned as explicit event lists.
-/

namespace VaultMigrate

/-! ## Decimal rendering of numbers

Models the JavaScript template-literal rendering of a nonnegative number
(`${counter}`, `${numberCounter}` and friends in the source). -/

/-- Little-endian decimal digit characters of a natural number,
as produced by repeated division by 10; structural fuel (`fuel ≥ m`
always suffices, as each division shrinks the number). -/
def natDigitsRevAux : Nat → Nat → List Char
  | 0, m => [Nat.digitChar m]
  | fuel + 1, m =>
    if m < 10 then [Nat.digitChar m]
    else Nat.digitChar (m % 10) :: natDigitsRevAux fuel (m / 10)

def natDigitsRev (n : Nat) : List Char := natDigitsRevAux n n

/-- Decimal string of a natural number (models JS number-to-string for
nonnegative integers). -/
def natToString (n : Nat) : String :=
  String.mk (natDigitsRev n).reverse

/-- Decimal string of an integer (models JS number-to-string for integers). -/
def intToString (i : Int) : String :=
  if i < 0 then "-" ++ natToString i.natAbs else natToString i.natAbs

/-- Numeric value of a decimal digit character. -/
def charDigitVal (c : Char) : Nat := c.toNat - 48

/-- Value of a little-endian decimal digit-character list. -/
def digitsVal : List Char → Nat
  | [] => 0
  | c :: cs => charDigitVal c + 10 * digitsVal cs

theorem charDigitVal_digitChar : ∀ m, m < 10 → charDigitVal (Nat.digitChar m) = m := by
  decide

theorem digitsVal_natDigitsRevAux :
    ∀ fuel m, m ≤ fuel → digitsVal (natDigitsRevAux fuel m) = m := by
  intro fuel
  induction fuel with
  | zero =>
    intro m hm
    have : m = 0 := by omega
    subst this
    simp [natDigitsRevAux, digitsVal, charDigitVal_digitChar 0 (by omega)]
  | succ fuel ih =>
    intro m hm
    rw [natDigitsRevAux]
    by_cases h : m < 10
    · rw [if_pos h]
      simp [digitsVal, charDigitVal_digitChar m h]
    · rw [if_neg h]
      have hdiv : m / 10 ≤ fuel := by
        have := Nat.div_lt_self (show 0 < m by omega) (show 1 < 10 by omega)
        omega
      simp only [digitsVal, ih (m / 10) hdiv,
        charDigitVal_digitChar (m % 10) (Nat.mod_lt _ (by omega))]
      omega

theorem digitsVal_natDigitsRev (n : Nat) : digitsVal (natDigitsRev n) = n :=
  digitsVal_natDigitsRevAux n n (le_refl n)

theorem natDigitsRev_injective : Function.Injective natDigitsRev := by
  intro m n h
  have := digitsVal_natDigitsRev m
  rw [h, digitsVal_natDigitsRev] at this
  omega

theorem natToString_injective : Function.Injective natToString := by
  intro m n h
  apply natDigitsRev_injective
  have : (natDigitsRev m).reverse = (natDigitsRev n).reverse := congrArg String.data h
  simpa using congrArg List.reverse this

theorem natDigitsRev_ne_nil (n : Nat) : natDigitsRev n ≠ [] := by
  rw [natDigitsRev]
  cases n with
  | zero => simp [natDigitsRevAux]
  | succ m =>
    rw [natDigitsRevAux]
    split <;> simp

theorem natToString_length_pos (n : Nat) : 0 < (natToString n).length := by
  show 0 < (natDigitsRev n).reverse.length
  have := natDigitsRev_ne_nil n
  simp only [List.length_reverse]
  exact List.length_pos.mpr this

/-! ## Naming resolver (`src/utils/fileUtils.ts`) -/

/-- Translation of `sanitizeTitle`: strips every character outside
`[A-Za-z0-9- ]` and truncates to 200 characters. -/
def sanitizeTitle (t : String) : String :=
  String.mk ((t.data.filter fun c =>
    c.isAlpha || c.isDigit || c = '-' || c = ' ').take 200)

/-- The file-existence capability (`fs.existsSync`), modelled as
membership in the list of existing paths. -/
def fileExists (fs : List String) (p : String) : Bool := fs.contains p

/-- One `while` step state of `generateUniqueTitle`: current candidate and
counter. Fuel bounds the loop; `fs.length + 1` steps always suffice
(`generateUniqueTitle_spec`), so the fueled function agrees with the
source's unbounded loop. -/
def gutAux (fs : List String) (title folderPath : String) :
    String → Nat → Nat → String
  | current, _, 0 => current
  | current, counter, fuel + 1 =>
    if fileExists fs (folderPath ++ "/" ++ current ++ ".md") then
      gutAux fs title folderPath (title ++ " (" ++ natToString counter ++ ")")
        (counter + 1) fuel
    else current

/-- Translation of `generateUniqueTitle`: starting from `title`, while
`folderPath/candidate.md` exists, move to `title (counter)` with the
counter starting at 1. -/
def generateUniqueTitle (fs : List String) (title folderPath : String) : String :=
  gutAux fs title folderPath title 1 (fs.length + 1)

/-- The n-th candidate name tried by `generateUniqueTitle`:
`title` for n = 0, `title (n)` afterwards. -/
def candDef (title : String) (n : Nat) : String :=
  if n = 0 then title else title ++ " (" ++ natToString n ++ ")"

/-- Path of the n-th candidate file. -/
def candPath (title folderPath : String) (n : Nat) : String :=
  folderPath ++ "/" ++ candDef title n ++ ".md"

theorem string_append_data (a b : String) : (a ++ b).data = a.data ++ b.data := rfl

theorem string_append_inj_mid (a b x y : String)
    (h : a ++ x ++ b = a ++ y ++ b) : x = y := by
  have hd : a.data ++ x.data ++ b.data = a.data ++ y.data ++ b.data := by
    have := congrArg String.data h
    simpa [string_append_data] using this
  have hxy : x.data = y.data := by
    rw [List.append_assoc, List.append_assoc] at hd
    exact List.append_cancel_right (List.append_cancel_left hd)
  cases x; cases y
  exact congrArg String.mk hxy

theorem candDef_injective (title : String) : Function.Injective (candDef title) := by
  intro m n h
  by_cases hm : m = 0 <;> by_cases hn : n = 0
  · omega
  · exfalso
    rw [candDef, candDef, if_pos hm, if_neg hn] at h
    have := congrArg String.length h
    simp only [String.length_append] at this
    have := natToString_length_pos n
    omega
  · exfalso
    rw [candDef, candDef, if_neg hm, if_pos hn] at h
    have := congrArg String.length h
    simp only [String.length_append] at this
    have := natToString_length_pos m
    omega
  · rw [candDef, candDef, if_neg hm, if_neg hn] at h
    have h2 : (title ++ " (") ++ natToString m ++ ")" =
        (title ++ " (") ++ natToString n ++ ")" := by
      simpa [String.append_assoc] using h
    exact natToString_injective (string_append_inj_mid _ _ _ _ h2)

theorem candPath_injective (title folderPath : String) :
    Function.Injective (candPath title folderPath) := by
  intro m n h
  apply candDef_injective title
  exact string_append_inj_mid (folderPath ++ "/") ".md" _ _ (by
    simpa [candPath, String.append_assoc] using h)

theorem exists_free_candidate (fs : List String) (title folderPath : String) :
    ∃ j, j ≤ fs.length ∧ fileExists fs (candPath title folderPath j) = false := by
  by_contra hc
  push_neg at hc
  have hall : ∀ j ≤ fs.length, candPath title folderPath j ∈ fs := by
    intro j hj
    have h := hc j hj
    rw [ne_eq, Bool.not_eq_false, fileExists] at h
    exact List.elem_iff.mp h
  set cands : List String :=
    (List.range (fs.length + 1)).map (candPath title folderPath) with hcands
  have hnodup : cands.Nodup :=
    (List.nodup_range _).map (candPath_injective title folderPath)
  have hsub : cands.toFinset ⊆ fs.toFinset := by
    intro x hx
    simp only [hcands, List.mem_toFinset, List.mem_map, List.mem_range] at hx
    obtain ⟨j, hj, rfl⟩ := hx
    exact List.mem_toFinset.mpr (hall j (by omega))
  have h1 : cands.toFinset.card = fs.length + 1 := by
    rw [List.toFinset_card_of_nodup hnodup]
    simp [hcands]
  have h2 : fs.toFinset.card ≤ fs.length := fs.toFinset_card_le
  have := Finset.card_le_card hsub
  omega

theorem gutAux_spec (fs : List String) (title folderPath : String) :
    ∀ fuel k,
      (∃ j, k ≤ j ∧ j < k + fuel ∧
        fileExists fs (candPath title folderPath j) = false) →
      ∃ n, gutAux fs title folderPath (candDef title k) (k + 1) fuel =
          candDef title n ∧
        k ≤ n ∧ fileExists fs (candPath title folderPath n) = false ∧
        ∀ m, k ≤ m → m < n → fileExists fs (candPath title folderPath m) = true := by
  intro fuel
  induction fuel with
  | zero =>
    intro k ⟨j, h1, h2, _⟩
    omega
  | succ fuel ih =>
    intro k ⟨j, h1, h2, hfree⟩
    rw [gutAux]
    by_cases hk : fileExists fs (folderPath ++ "/" ++ candDef title k ++ ".md") = true
    · rw [if_pos hk]
      have hkne : j ≠ k := by
        intro h; subst h
        rw [show folderPath ++ "/" ++ candDef title j ++ ".md" =
          candPath title folderPath j from rfl] at hk
        rw [hfree] at hk; cases hk
      have hnext : title ++ " (" ++ natToString (k + 1) ++ ")" =
          candDef title (k + 1) := by
        rw [candDef, if_neg (by omega)]
      rw [hnext]
      obtain ⟨n, hn1, hn2, hn3, hn4⟩ := ih (k + 1) ⟨j, by omega, by omega, hfree⟩
      refine ⟨n, hn1, by omega, hn3, ?_⟩
      intro m hm1 hm2
      rcases Nat.eq_or_lt_of_le hm1 with h | h
      · subst h
        exact hk
      · exact hn4 m h hm2
    · rw [if_neg hk]
      refine ⟨k, rfl, le_refl _, ?_, by omega⟩
      simpa using hk

theorem generateUniqueTitle_spec (fs : List String) (title folderPath : String) :
    ∃ n, generateUniqueTitle fs title folderPath = candDef title n ∧
      fileExists fs (candPath title folderPath n) = false ∧
      ∀ m, m < n → fileExists fs (candPath title folderPath m) = true := by
  obtain ⟨j, hj1, hj2⟩ := exists_free_candidate fs title folderPath
  have h0 : candDef title 0 = title := rfl
  obtain ⟨n, hn1, _, hn3, hn4⟩ := gutAux_spec fs title folderPath (fs.length + 1) 0
    ⟨j, by omega, by omega, hj2⟩
  refine ⟨n, ?_, hn3, fun m hm => hn4 m (by omega) hm⟩
  rw [generateUniqueTitle, ← h0]
  exact hn1

theorem fileExists_iff_mem (fs : List String) (p : String) :
    fileExists fs p = true ↔ p ∈ fs := List.elem_iff

theorem fileExists_range_map (title folderPath : String) (k j : Nat) :
    fileExists ((List.range (k + 1)).map (candPath title folderPath))
      (candPath title folderPath j) = true ↔ j < k + 1 := by
  rw [fileExists_iff_mem, List.mem_map]
  constructor
  · rintro ⟨i, hi, heq⟩
    rw [List.mem_range] at hi
    rwa [candPath_injective title folderPath heq] at hi
  · intro hj
    exact ⟨j, List.mem_range.mpr hj, rfl⟩

/-- Claim C8: for every title and directory (the file system modelled as the
list of existing paths), if `title.md` does not exist `generateUniqueTitle`
returns the title unchanged; otherwise it returns `title (n)` for the
smallest positive integer n such that `title (n).md` does not exist; and
for a directory containing exactly `Title.md, Title (1).md, ..., Title (k).md`
it returns `Title (k+1)`. -/
theorem generateUniqueTitle_smallest (title folderPath : String) (fs : List String) :
    (fileExists fs (folderPath ++ "/" ++ title ++ ".md") = false →
      generateUniqueTitle fs title folderPath = title)
    ∧ (fileExists fs (folderPath ++ "/" ++ title ++ ".md") = true →
      ∃ n, 1 ≤ n ∧
        generateUniqueTitle fs title folderPath =
          title ++ " (" ++ natToString n ++ ")" ∧
        fileExists fs (folderPath ++ "/" ++ (title ++ " (" ++ natToString n ++ ")")
          ++ ".md") = false ∧
        ∀ m, 1 ≤ m → m < n →
          fileExists fs (folderPath ++ "/" ++ (title ++ " (" ++ natToString m ++ ")")
            ++ ".md") = true)
    ∧ (∀ k, generateUniqueTitle
        ((List.range (k + 1)).map (candPath title folderPath)) title folderPath =
        title ++ " (" ++ natToString (k + 1) ++ ")") := by
  have hpath0 : folderPath ++ "/" ++ title ++ ".md" = candPath title folderPath 0 := rfl
  have hpathn : ∀ n, n ≠ 0 →
      folderPath ++ "/" ++ (title ++ " (" ++ natToString n ++ ")") ++ ".md" =
      candPath title folderPath n := by
    intro n hn
    rw [candPath, candDef, if_neg hn]
  refine ⟨?_, ?_, ?_⟩
  · intro h0
    obtain ⟨n, hn1, hn2, hn3⟩ := generateUniqueTitle_spec fs title folderPath
    have hn0 : n = 0 := by
      by_contra hne
      have := hn3 0 (by omega)
      rw [← hpath0] at this
      rw [h0] at this; cases this
    rw [hn1, hn0]; rfl
  · intro h0
    obtain ⟨n, hn1, hn2, hn3⟩ := generateUniqueTitle_spec fs title folderPath
    have hn0 : n ≠ 0 := by
      intro hne
      rw [hne, ← hpath0] at hn2
      rw [h0] at hn2; cases hn2
    refine ⟨n, by omega, ?_, ?_, ?_⟩
    · rw [hn1, candDef, if_neg hn0]
    · rwa [hpathn n hn0]
    · intro m hm1 hm2
      rw [hpathn m (by omega)]
      exact hn3 m hm2
  · intro k
    set fsk := (List.range (k + 1)).map (candPath title folderPath) with hfsk
    obtain ⟨n, hn1, hn2, hn3⟩ := generateUniqueTitle_spec fsk title folderPath
    have hfree : ¬ n < k + 1 := by
      intro hlt
      rw [(fileExists_range_map title folderPath k n).mpr hlt] at hn2
      cases hn2
    have hmin : n = k + 1 := by
      by_contra hne
      have hk1 : k + 1 < n := by omega
      have := hn3 (k + 1) hk1
      rw [fileExists_range_map] at this
      omega
    rw [hn1, hmin, candDef, if_neg (by omega)]

/-- Witness for `generateUniqueTitle_smallest`: both hypotheses discharged
at concrete directories. -/
theorem generateUniqueTitle_smallest_witness :
    generateUniqueTitle [] "Title" "dir" = "Title" ∧
    (∃ n, 1 ≤ n ∧
      generateUniqueTitle ["dir/Title.md"] "Title" "dir" =
        "Title" ++ " (" ++ natToString n ++ ")" ∧
      fileExists ["dir/Title.md"]
        ("dir" ++ "/" ++ ("Title" ++ " (" ++ natToString n ++ ")") ++ ".md") = false ∧
      ∀ m, 1 ≤ m → m < n →
        fileExists ["dir/Title.md"]
          ("dir" ++ "/" ++ ("Title" ++ " (" ++ natToString m ++ ")") ++ ".md") = true) :=
  ⟨(generateUniqueTitle_smallest "Title" "dir" []).1 rfl,
   (generateUniqueTitle_smallest "Title" "dir" ["dir/Title.md"]).2.1 rfl⟩

/-! ## Import control state (`NotionTypes.ts`, `NotionMigrationSettingTab.ts`) -/

/-- The shared cooperative coordination flags (`interfaces/NotionTypes.ts`). -/
structure ImportControl where
  isImporting : Bool
  forceStop : Bool
deriving DecidableEq, Repr

/-- Translation of the start-button handler
(`NotionMigrationSettingTab.display`, lines 93-95): it sets
`importControl.isImporting = true` and touches no other flag.
In particular it never writes `forceStop`. -/
def startTransition (c : ImportControl) : ImportControl :=
  { c with isImporting := true }

/-- Translation of the stop-button handler
(`NotionMigrationSettingTab.display`, lines 180-189): it sets
`isImporting = false` and `forceStop = true`. -/
def stopTransition (_ : ImportControl) : ImportControl :=
  { isImporting := false, forceStop := true }

/-- Claim C1 (code bug exhibit): the idle-to-running transition leaves
`forceStop` exactly as it was, so after a previous run was force-stopped
(`stopTransition`), starting a new run yields `forceStop = true` — not
`forceStop = false` as the specification states. -/
theorem startTransition_keeps_forceStop :
    (∀ c, startTransition c = { isImporting := true, forceStop := c.forceStop }) ∧
    (startTransition (stopTransition { isImporting := true, forceStop := false })).forceStop
      = true := by
  exact ⟨fun c => rfl, rfl⟩

/-! ## Data model (`interfaces/NotionTypes.ts` and the untyped payloads the
source branches on) -/

/-- One rich-text run: plain text plus the style annotations the source
reads (`annotations.bold`, `annotations.italic`, `href`). -/
structure RichText where
  plain_text : String
  bold : Bool := false
  italic : Bool := false
  href : Option String := none
deriving DecidableEq, Repr

/-- A UTC instant, as parsed by `moment.utc` from the remote API's ISO
timestamp. -/
structure DateTime where
  year : Nat
  month : Nat
  day : Nat
  hour : Nat
  minute : Nat
  second : Nat
  millis : Nat
deriving DecidableEq, Repr

def pad2 (n : Nat) : String :=
  if n < 10 then "0" ++ natToString n else natToString n

def pad3 (n : Nat) : String :=
  if n < 10 then "00" ++ natToString n
  else if n < 100 then "0" ++ natToString n
  else natToString n

def pad4 (n : Nat) : String :=
  if n < 10 then "000" ++ natToString n
  else if n < 100 then "00" ++ natToString n
  else if n < 1000 then "0" ++ natToString n
  else natToString n

/-- The rendering `moment.utc(value).toISOString()` produces for a UTC
instant: `YYYY-MM-DDTHH:mm:ss.sssZ`. -/
def toISOString (d : DateTime) : String :=
  pad4 d.year ++ "-" ++ pad2 d.month ++ "-" ++ pad2 d.day ++ "T" ++
  pad2 d.hour ++ ":" ++ pad2 d.minute ++ ":" ++ pad2 d.second ++ "." ++
  pad3 d.millis ++ "Z"

/-- One entry of a `files` property payload. -/
structure FileEntry where
  ftype : String
  externalUrl : Option String := none
  fileUrl : Option String := none
  name : Option String := none
deriving DecidableEq, Repr

/-- Payload of a `formula` property (`formula.type` with the carried value;
`Option` models a `null` value rendered by the JS template literal). -/
inductive FormulaValue where
  | fnum (n : Option Int)
  | fstr (s : Option String)
  | fbool (b : Option Bool)
  | funknown
deriving DecidableEq, Repr

/-- One entry of a `rollup.array`: the source only inspects entries of type
`formula` (reading `item.formula`, `item.function` and `item.number`). -/
inductive RollupItem where
  | formulaItem (f : FormulaValue) (func : String) (number : Option Int)
  | otherItem
deriving DecidableEq, Repr

/-- The tagged union of property payloads the mapper's `switch` branches
on. `Option` payloads model JS null/undefined falsiness checks. -/
inductive PropValue where
  | select (payload : Option String)
  | rich_text (runs : List RichText)
  | checkbox (b : Bool)
  | date (start : Option DateTime)
  | number (n : Option Int)
  | status (payload : Option String)
  | multi_select (tags : List String)
  | files (entries : List FileEntry)
  | formula (f : FormulaValue)
  | created_time (t : Option DateTime)
  | relation (ids : List String)
  | url (u : Option String)
  | rollup (array : Option (List RollupItem))
  | title (runs : List RichText)
deriving DecidableEq, Repr

/-- The content-block tree: kind-specific payload, the `has_children` flag,
and the child list the "fetch children" capability would return for this
block's id. The kinds the development reasons about are embedded from the
source's `switch`; `other` stands for any kind whose case emits no text
(exactly the source's fall-through behavior for unknown kinds). -/
inductive BlockKind where
  | bulleted_list_item (rich_text : List RichText)
  | numbered_list_item (rich_text : List RichText)
  | child_page (childTitle : String)
  | other
deriving DecidableEq, Repr

inductive Block where
  | node (id : String) (kind : BlockKind) (has_children : Bool)
      (children : List Block)

def Block.id : Block → String
  | .node i _ _ _ => i

def Block.kind : Block → BlockKind
  | .node _ k _ _ => k

/-- One remote record (page/database row): id, ordered property mapping,
and the content-block list the "fetch children of the page" capability
would return for it. -/
structure Page where
  id : String
  properties : List (String × PropValue)
  blocks : List Block

/-! ## String primitives

Structural models of the JS string operations the source uses
(`split` on a one-character separator, global one-character `replace`,
`Array.join`), kept kernel-computable. -/

/-- JS `str.split(sep)` for a one-character separator, on char lists. -/
def splitChar (sep : Char) : List Char → List (List Char)
  | [] => [[]]
  | c :: cs =>
    match splitChar sep cs with
    | [] => [[]]
    | g :: gs => if c = sep then [] :: g :: gs else (c :: g) :: gs

/-- JS `str.split(sep)` for a one-character separator. -/
def splitOnChar (s : String) (sep : Char) : List String :=
  (splitChar sep s.data).map String.mk

/-- JS global one-character `replace` (e.g. spaces to underscores). -/
def replaceAllChar (s : String) (c r : Char) : String :=
  String.mk (s.data.map fun x => if x = c then r else x)

/-- JS `Array.join(sep)`. -/
def joinSep (sep : String) : List String → String
  | [] => ""
  | [x] => x
  | x :: y :: xs => x ++ sep ++ joinSep sep (y :: xs)

def strStartsWith (s pfx : String) : Bool := pfx.data.isPrefixOf s.data

def strDrop (s : String) (n : Nat) : String := String.mk (s.data.drop n)

/-! ## Quoting, key squashing and small string helpers
(`markdownCreation.ts` local closures) -/

/-- JS `\w` (ASCII word character). -/
def isWordChar (c : Char) : Bool := c.isAlpha || c.isDigit || c = '_'

/-- JS `\s`, restricted to the ASCII whitespace relevant here. -/
def isSpaceChar (c : Char) : Bool := c = ' ' || c = '\t' || c = '\n' || c = '\r'

/-- Translation of `safeKey`: quote when the key matches `/[^\w\s]/`. -/
def safeKey (k : String) : String :=
  if k.data.any (fun c => !(isWordChar c || isSpaceChar c)) then "\"" ++ k ++ "\"" else k

/-- Translation of `safeValue`: quote when the value matches `/[\W_]/`,
i.e. has any non-alphanumeric character. -/
def safeValue (v : String) : String :=
  if v.data.any (fun c => !(c.isAlpha || c.isDigit)) then "\"" ++ v ++ "\"" else v

/-- First-character capitalization (`word.charAt(0).toUpperCase() + word.slice(1)`). -/
def capitalizeFirst (w : String) : String :=
  match w.data with
  | [] => ""
  | c :: rest => String.mk (c.toUpper :: rest)

/-- The date-key rewriting applied under `squashDateNamesForDataview`:
split on spaces, capitalize each word, concatenate. -/
def squashKey (k : String) : String :=
  String.join ((splitOnChar k ' ').map capitalizeFirst)

/-- Node `path.join` for the simple two-segment joins the source performs. -/
def pathJoin (a b : String) : String :=
  if a = "" then b else a ++ "/" ++ b

/-- Node `path.basename`. -/
def basename (p : String) : String := (splitOnChar p '/').getLastD ""

/-- The `block.id.replace` call removing every hyphen from the id. -/
def stripHyphens (s : String) : String := String.mk (s.data.filter fun c => c ≠ '-')

/-! ## Files-property machinery (`markdownCreation.ts` files case,
`fileUtils.getFileExtension`, `fileUtils.downloadFile`) -/

/-- Part of `new URL(u)`: the pathname of an http(s) URL; `none` models the
`TypeError` thrown on a URL without an http(s) scheme. -/
def urlPathname (u : String) : Option String :=
  let rest? := if strStartsWith u "https://" then some (strDrop u 8)
    else if strStartsWith u "http://" then some (strDrop u 7) else none
  rest?.map fun rest =>
    let noFrag := (splitOnChar rest '#').headD rest
    let hp := (splitOnChar noFrag '?').headD noFrag
    match splitOnChar hp '/' with
    | [] => "/"
    | _ :: segs => if segs.isEmpty then "/" else "/" ++ joinSep "/" segs

/-- Translation of `getFileExtension`: `new URL(url).pathname.split(".").pop() || ""`;
`none` models the thrown `TypeError` on an invalid URL. -/
def getFileExtension (u : String) : Option String :=
  (urlPathname u).map fun pn => (splitOnChar pn '.').getLastD ""

/-- JS `x || default` for an optional string. -/
def orDefault (o : Option String) (dflt : String) : String :=
  match o with
  | some s => if s = "" then dflt else s
  | none => dflt

/-- The download-and-link step shared by both file-entry types: derive the
extension, sanitize the name, download via the Asset Fetcher capability
`dl`, and emit the wikilink line. -/
def downloadStep (dl : String → Except String Unit) (attachmentPath : String)
    (u fileName : String) : Except String String :=
  match getFileExtension u with
  | none => Except.error "Invalid URL"
  | some ext =>
    let safeFileName := sanitizeTitle fileName
    let outputPath := pathJoin attachmentPath
      (safeFileName ++ (if ext = "" then "" else "." ++ ext))
    match dl u with
    | Except.ok _ => Except.ok ("  - [[" ++ basename outputPath ++ "]]\n")
    | Except.error msg => Except.error msg

/-- The `try` body for one file entry: resolve url and name by entry type
(`external` with a missing url throws from `undefined.split`; a `file`
entry with a missing url is skipped via `continue`, emitting nothing). -/
def tryDownloadEntry (dl : String → Except String Unit) (attachmentPath : String)
    (now : Nat) (f : FileEntry) : Except String String :=
  match f.ftype with
  | "external" =>
    match f.externalUrl with
    | none => Except.error "Cannot read properties of undefined (reading 'split')"
    | some u =>
      let nm := (splitOnChar u '/').getLastD ""
      let fileName := if nm = "" then "external_file_" ++ natToString now else nm
      if u = "" then Except.ok "" else downloadStep dl attachmentPath u fileName
  | "file" =>
    match f.fileUrl with
    | none => Except.ok ""
    | some u =>
      if u = "" then Except.ok ""
      else downloadStep dl attachmentPath u
        (orDefault f.name ("notion_file_" ++ natToString now))
  | _ => Except.ok ""

/-- The failure line the `catch` appends for one file entry. -/
def failedLine (f : FileEntry) (msg : String) : String :=
  "  - Failed: " ++ orDefault f.name "unnamed file" ++ " (" ++ msg ++ ")\n"

/-- One file entry processed under the per-entry `try/catch`. -/
def processFileEntry (dl : String → Except String Unit) (attachmentPath : String)
    (now : Nat) (f : FileEntry) : String :=
  match tryDownloadEntry dl attachmentPath now f with
  | Except.ok s => s
  | Except.error msg => failedLine f msg

/-- The `for (const file of property.files)` loop body of the files case. -/
def filesLoop (dl : String → Except String Unit) (attachmentPath : String)
    (now : Nat) (entries : List FileEntry) : String :=
  String.join (entries.map (processFileEntry dl attachmentPath now))

/-! ## Property mapper (`createMarkdownFiles` property switch) -/

/-- Per-run settings read by the conversion core
(`PluginSettings`, passed into `createMarkdownFiles`). `existingFiles`
models the "check existence" storage capability; `now` models `Date.now()`. -/
structure Config where
  attachPageId : Bool
  importPageContent : Bool
  createRelationContentPage : Bool
  enabledProperties : List (String × Bool)
  createSemanticLinking : Bool
  attachmentPath : String
  squashDateNamesForDataview : Bool
  subpagesPath : String
  importSubpages : Bool
  vaultPath : String
  folderName : String
  existingFiles : List String
  now : Nat

/-- `enabledProperties[key]` lookup. -/
def lookupEnabled (l : List (String × Bool)) (k : String) : Option Bool :=
  (l.find? (fun p => p.1 = k)).map (fun p => p.2)

def lookupProp (props : List (String × PropValue)) (k : String) : Option PropValue :=
  (props.find? (fun p => p.1 = k)).map (fun p => p.2)

/-- Translation of the relation-name extraction
(`pageData.properties.Name.title[0].plain_text`): reads the property
literally named `"Name"`, expects a title payload, takes the first run's
plain text. `none` models the `TypeError` thrown when any step is
undefined. -/
def extractRelatedName (p : Page) : Option String :=
  match lookupProp p.properties "Name" with
  | some (PropValue.title (r :: _)) => some r.plain_text
  | _ => none

/-- Modelled from the spec: "extract its display name from its own title
property" — the first property of the referenced record whose kind is
`title`, taking its first run's plain text. Stated to compare with the
source's `extractRelatedName`. -/
def specTitleDisplayName (p : Page) : Option String :=
  p.properties.findSome? fun kv =>
    match kv.2 with
    | PropValue.title (r :: _) => some r.plain_text
    | _ => none

/-- Contributions of one property to the record's output: inline
front-matter text, semantic-link fragments, relation-list fragments, and
the computed `Alias`/`pageTitle`. -/
structure PropOut where
  text : String
  sem : List String
  rel : List String
  aliasName : Option String
deriving DecidableEq, Repr

/-- The Dataview-style semantic-link line built in the relation case. -/
def semanticLine (key : String) (relatedNames : List String) : String :=
  replaceAllChar (safeKey key) ' ' '_' ++ ":: " ++
    joinSep ", " (relatedNames.map (fun nm => "[[" ++ nm ++ "]]")) ++ "\n"

/-- The YAML wikilink-list fragment pushed to `relationLinks`. -/
def relationFragment (key : String) (relatedNames : List String) : String :=
  safeKey key ++ ":\n" ++
    joinSep "\n" (relatedNames.map (fun nm => "  - [[" ++ nm ++ "]]")) ++ "\n"

/-- The plain YAML bare-name list emitted inline in front matter. -/
def relationInline (key : String) (relatedNames : List String) : String :=
  safeKey key ++ ":\n" ++
    joinSep "\n" (relatedNames.map (fun nm => "  - " ++ nm)) ++ "\n"

/-- One `rollup.array` entry's contribution (`rollupArray.forEach`). -/
def rollupItemLine (key : String) (item : RollupItem) : String :=
  match item with
  | RollupItem.formulaItem f func number =>
    match f with
    | FormulaValue.fstr o => safeKey key ++ ": " ++ safeValue (o.getD "null") ++ "\n"
    | FormulaValue.fbool o =>
      safeKey key ++ ": " ++
        (match o with
         | some b => if b then "true" else "false"
         | none => "null") ++ "\n"
    | FormulaValue.fnum _ =>
      if func = "percent_per_group" then
        safeKey key ++ ": " ++
          (match number with
           | some i => intToString i
           | none => "undefined") ++ "\n"
      else ""
    | FormulaValue.funknown => ""
  | RollupItem.otherItem => ""

/-- One iteration of the property `switch` in `createMarkdownFiles`:
contributions of property `key` with value `v`. `fetch` is the external
"fetch resource by id" capability used by the relation case; `dl` the
binary downloader used by the files case. `none` models the uncaught
`TypeError` from relation-name extraction, which aborts the record. -/
def propertyLine (cfg : Config) (fetch : String → Page)
    (dl : String → Except String Unit) (key : String) (v : PropValue) :
    Option PropOut :=
  match v with
  | PropValue.select payload =>
    some ⟨(match payload with
      | some nm => safeKey key ++ ": " ++ safeValue nm ++ "\n"
      | none => ""), [], [], none⟩
  | PropValue.rich_text runs =>
    if runs ≠ [] then
      let textContent := replaceAllChar (String.join (runs.map (fun r => r.plain_text))) '\n' ' '
      some ⟨safeKey key ++ ": >-\n  " ++ safeValue textContent ++ "\n", [], [], none⟩
    else some ⟨safeKey key ++ ": null\n", [], [], none⟩
  | PropValue.checkbox b =>
    some ⟨safeKey key ++ ": " ++ (if b then "true" else "false") ++ "\n", [], [], none⟩
  | PropValue.date start =>
    let finalKey := if cfg.squashDateNamesForDataview then squashKey key else key
    some ⟨(match start with
      | some d => safeKey finalKey ++ ": " ++ toISOString d ++ "\n"
      | none => safeKey finalKey ++ ": null\n"), [], [], none⟩
  | PropValue.number n =>
    some ⟨(match n with
      | some m => if m = 0 then safeKey key ++ ": \n"
          else safeKey key ++ ": " ++ intToString m ++ "\n"
      | none => safeKey key ++ ": \n"), [], [], none⟩
  | PropValue.status payload =>
    some ⟨(match payload with
      | some nm => if nm = "" then safeKey key ++ ": \n"
          else safeKey key ++ ": " ++ safeValue nm ++ "\n"
      | none => safeKey key ++ ": \n"), [], [], none⟩
  | PropValue.multi_select tags =>
    some ⟨(if tags ≠ [] then
        safeKey key ++ ": " ++ joinSep " " tags ++ "\n"
      else ""), [], [], none⟩
  | PropValue.files entries =>
    some ⟨safeKey key ++ ":\n" ++
      (if entries ≠ [] then filesLoop dl cfg.attachmentPath cfg.now entries
       else "  []\n"), [], [], none⟩
  | PropValue.formula f =>
    some ⟨(match f with
      | FormulaValue.fnum o => safeKey key ++ ": " ++
          (match o with
           | some i => intToString i
           | none => "null") ++ "\n"
      | FormulaValue.fstr o => safeKey key ++ ": " ++ o.getD "null" ++ "\n"
      | FormulaValue.fbool o => safeKey key ++ ": " ++
          (match o with
           | some b => if b then "true" else "false"
           | none => "null") ++ "\n"
      | FormulaValue.funknown => ""), [], [], none⟩
  | PropValue.created_time t =>
    some ⟨(match t with
      | some d => safeKey key ++ ": " ++ toISOString d ++ "\n"
      | none => safeKey key ++ ": \n"), [], [], none⟩
  | PropValue.relation ids =>
    if ids ≠ [] then
      match ids.mapM (fun i => extractRelatedName (fetch i)) with
      | none => none
      | some relatedNames =>
        let semPart := if cfg.createSemanticLinking
          then [semanticLine key relatedNames] else []
        if cfg.createRelationContentPage then
          some ⟨"", semPart, [relationFragment key relatedNames], none⟩
        else
          some ⟨relationInline key relatedNames, semPart, [], none⟩
    else some ⟨safeKey key ++ ": \n", [], [], none⟩
  | PropValue.url u =>
    some ⟨(match u with
      | some s => if s = "" then safeKey key ++ ": \n"
          else safeKey key ++ ": " ++ s ++ "\n"
      | none => safeKey key ++ ": \n"), [], [], none⟩
  | PropValue.rollup arr =>
    some ⟨(match arr with
      | some items => String.join (items.map (rollupItemLine key))
      | none => safeKey key ++ ": null\n"), [], [], none⟩
  | PropValue.title runs =>
    match runs with
    | r :: _ =>
      let finalKey := safeKey (replaceAllChar r.plain_text ' ' '_')
      some ⟨"Alias: " ++ finalKey ++ "\n", [], [], some finalKey⟩
    | [] => some ⟨"Alias: \n", [], [], none⟩

/-- Sequencing of two properties' contributions: texts and fragment lists
concatenate in order; a later title assignment overwrites `pageTitle`. -/
def combinePropOut (h t : PropOut) : PropOut :=
  ⟨h.text ++ t.text, h.sem ++ t.sem, h.rel ++ t.rel,
   match t.aliasName with
   | some a => some a
   | none => h.aliasName⟩

/-- The property loop of `createMarkdownFiles`: properties disabled via
`enabledProperties[key] === false` are skipped entirely; the rest
contribute in order. -/
def buildProps (cfg : Config) (fetch : String → Page)
    (dl : String → Except String Unit) :
    List (String × PropValue) → Option PropOut
  | [] => some ⟨"", [], [], none⟩
  | (key, v) :: rest =>
    if lookupEnabled cfg.enabledProperties key = some false then
      buildProps cfg fetch dl rest
    else
      match propertyLine cfg fetch dl key v, buildProps cfg fetch dl rest with
      | some h, some t => some (combinePropOut h t)
      | _, _ => none

/-- The post-front-matter fragment append (`markdownCreation.ts` lines
372-377): at most one of the two fragment kinds, semantic links first.
JS `content += array` coerces the array to a comma-joined string. -/
def appendFragments (createSemanticLinking : Bool)
    (semLinks relLinks : List String) : String :=
  if createSemanticLinking ∧ semLinks ≠ [] then joinSep "," semLinks
  else if relLinks ≠ [] then joinSep "," relLinks
  else ""

/-! ## Block renderer (`fetchBlockContent` / `extractContentFromPage`) -/

/-- Rendered text, the ids whose children were fetched from the remote API,
and the subpage file writes started, accumulated by a render call. -/
structure RenderOut where
  content : String
  fetched : List String
  writes : List (String × String)
deriving DecidableEq, Repr

/-- The `block.type` string of an embedded block kind. -/
def BlockKind.typeName : BlockKind → String
  | .bulleted_list_item _ => "bulleted_list_item"
  | .numbered_list_item _ => "numbered_list_item"
  | .child_page _ => "child_page"
  | .other => "other"

/-- The numbered-list counter reset at the top of each loop iteration:
reset to 1 exactly when the previous block was a `numbered_list_item` and
the current one is not. -/
def resetCounter (prev typeNm : String) (c : Nat) : Nat :=
  if prev = "numbered_list_item" ∧ typeNm ≠ "numbered_list_item" then 1 else c

/-- Rich-text runs of a list item: plain text, bold applied first, italic
around it. -/
def renderRuns (runs : List RichText) : String :=
  String.join (runs.map fun r =>
    let t := r.plain_text
    let t := if r.bold then "**" ++ t ++ "**" else t
    if r.italic then "*" ++ t ++ "*" else t)

/-- Translation of `fetchBlockContent`: walk the block list threading the
previous block's type and the numbered-list counter, emit per-kind
markdown, and recurse into children of any block with `has_children`.
`stop` is the (run-constant during an uninterrupted render) value of
`importControl.forceStop`; when set, the accumulated content is returned
as-is. The `child_page` case with `importSubpages` models the recursive
`extractContentFromPage` call (fetch the child's blocks, render them with
fresh state, start the subpage file write) and emits an internal wikilink;
with subpage import disabled it emits an external link to the hosted page
URL. The trailing `has_children` step fetches and renders children of any
flagged block, the child call starting from the just-updated previous
type and current counter. -/
def renderBlocks (importSubpages stop : Bool) (vaultPath subpagesPath : String) :
    List Block → String → Nat → String → RenderOut
  | [], _, _, content => ⟨content, [], []⟩
  | Block.node id (BlockKind.bulleted_list_item runs) hc kids :: rest,
      prev, counter, content =>
    if stop then ⟨content, [], []⟩
    else
      let c1 := resetCounter prev "bulleted_list_item" counter
      let content1 :=
        if runs ≠ [] then content ++ "- " ++ renderRuns runs ++ "\n" else content
      if hc then
        let s := renderBlocks importSubpages stop vaultPath subpagesPath
          kids "bulleted_list_item" c1 ""
        let r := renderBlocks importSubpages stop vaultPath subpagesPath
          rest "bulleted_list_item" c1 (content1 ++ s.content)
        ⟨r.content, id :: s.fetched ++ r.fetched, s.writes ++ r.writes⟩
      else
        renderBlocks importSubpages stop vaultPath subpagesPath
          rest "bulleted_list_item" c1 content1
  | Block.node id (BlockKind.numbered_list_item runs) hc kids :: rest,
      prev, counter, content =>
    if stop then ⟨content, [], []⟩
    else
      let c1 := resetCounter prev "numbered_list_item" counter
      let content1 :=
        if runs ≠ [] then
          content ++ natToString c1 ++ ". " ++ renderRuns runs ++ "\n"
        else content
      let c2 := if runs ≠ [] then c1 + 1 else c1
      if hc then
        let s := renderBlocks importSubpages stop vaultPath subpagesPath
          kids "numbered_list_item" c2 ""
        let r := renderBlocks importSubpages stop vaultPath subpagesPath
          rest "numbered_list_item" c2 (content1 ++ s.content)
        ⟨r.content, id :: s.fetched ++ r.fetched, s.writes ++ r.writes⟩
      else
        renderBlocks importSubpages stop vaultPath subpagesPath
          rest "numbered_list_item" c2 content1
  | Block.node id (BlockKind.child_page childTitle) hc kids :: rest,
      prev, counter, content =>
    if stop then ⟨content, [], []⟩
    else
      let c1 := resetCounter prev "child_page" counter
      if childTitle ≠ "" then
        if importSubpages then
          let s0 := renderBlocks importSubpages stop vaultPath subpagesPath
            kids "null" 1 ""
          let content1 := content ++ "[[" ++ childTitle ++ "]]\n\n"
          let w1 := s0.writes ++
            [(vaultPath ++ "/" ++ subpagesPath ++ "/" ++ safeKey childTitle ++
              ".md", s0.content)]
          if hc then
            let s := renderBlocks importSubpages stop vaultPath subpagesPath
              kids "child_page" c1 ""
            let r := renderBlocks importSubpages stop vaultPath subpagesPath
              rest "child_page" c1 (content1 ++ s.content)
            ⟨r.content, (id :: s0.fetched) ++ (id :: s.fetched) ++ r.fetched,
             w1 ++ s.writes ++ r.writes⟩
          else
            let r := renderBlocks importSubpages stop vaultPath subpagesPath
              rest "child_page" c1 content1
            ⟨r.content, (id :: s0.fetched) ++ r.fetched, w1 ++ r.writes⟩
        else
          let content1 := content ++ "[" ++ childTitle ++
            "](https://www.notion.so/" ++ stripHyphens id ++ ")\n\n"
          if hc then
            let s := renderBlocks importSubpages stop vaultPath subpagesPath
              kids "child_page" c1 ""
            let r := renderBlocks importSubpages stop vaultPath subpagesPath
              rest "child_page" c1 (content1 ++ s.content)
            ⟨r.content, id :: s.fetched ++ r.fetched, s.writes ++ r.writes⟩
          else
            renderBlocks importSubpages stop vaultPath subpagesPath
              rest "child_page" c1 content1
      else
        if hc then
          let s := renderBlocks importSubpages stop vaultPath subpagesPath
            kids "child_page" c1 ""
          let r := renderBlocks importSubpages stop vaultPath subpagesPath
            rest "child_page" c1 (content ++ s.content)
          ⟨r.content, id :: s.fetched ++ r.fetched, s.writes ++ r.writes⟩
        else
          renderBlocks importSubpages stop vaultPath subpagesPath
            rest "child_page" c1 content
  | Block.node id BlockKind.other hc kids :: rest, prev, counter, content =>
    if stop then ⟨content, [], []⟩
    else
      let c1 := resetCounter prev "other" counter
      if hc then
        let s := renderBlocks importSubpages stop vaultPath subpagesPath
          kids "other" c1 ""
        let r := renderBlocks importSubpages stop vaultPath subpagesPath
          rest "other" c1 (content ++ s.content)
        ⟨r.content, id :: s.fetched ++ r.fetched, s.writes ++ r.writes⟩
      else
        renderBlocks importSubpages stop vaultPath subpagesPath
          rest "other" c1 content
termination_by bs _ _ _ => sizeOf bs
decreasing_by all_goals (simp_wf; try omega)

/-- Translation of `extractContentFromPage`: check the stop flag, fetch
the page's child blocks, render them with fresh counters and a `null`
previous type. -/
def extractContentFromPage (importSubpages stop : Bool)
    (vaultPath subpagesPath : String) (pageId : String) (blocks : List Block) :
    RenderOut :=
  if stop then ⟨"", [], []⟩
  else
    let r := renderBlocks importSubpages stop vaultPath subpagesPath blocks "null" 1 ""
    ⟨r.content, pageId :: r.fetched, r.writes⟩

/-! ## Import orchestrator (`createMarkdownFiles` record loop) -/

/-- The record's file title: the first title-kind property's sanitized
text (default `"empty"`), then either the page-id suffix or the
collision-avoiding unique title. -/
def firstTitle (p : Page) : String :=
  match p.properties.findSome? (fun kv =>
    match kv.2 with
    | PropValue.title (r :: _) => some r.plain_text
    | _ => none) with
  | some t => sanitizeTitle t
  | none => "empty"

def pageFileTitle (cfg : Config) (p : Page) : String :=
  let base := firstTitle p
  if cfg.attachPageId then base ++ "_" ++ p.id
  else generateUniqueTitle cfg.existingFiles base
    (cfg.vaultPath ++ "/" ++ cfg.folderName)

/-- Property mapping plus document assembly for one record: front matter
between `---` delimiters, the post-front-matter relation fragment, then
(when content import is enabled) the rendered page body. `none` models the
uncaught relation-lookup `TypeError` aborting the record. -/
def processPage (cfg : Config) (fetch : String → Page)
    (dl : String → Except String Unit) (p : Page) : Option (String × String) :=
  match buildProps cfg fetch dl p.properties with
  | none => none
  | some pr =>
    let content := "---\n" ++ pr.text ++ "---\n" ++
      appendFragments cfg.createSemanticLinking pr.sem pr.rel
    let content := if cfg.importPageContent then
        content ++ (extractContentFromPage cfg.importSubpages false
          cfg.vaultPath cfg.subpagesPath p.id p.blocks).content
      else content
    some (pageFileTitle cfg p, content)

/-- Records that entered property mapping, and the file writes enqueued. -/
structure RunResult where
  mapped : List String
  enqueued : List (String × String)
deriving DecidableEq, Repr

/-- The `ImportControl` state seen by the loop iteration for record `i`,
for a run in which the stop button (the only writer of `forceStop`) fires
between records `stopIdx - 1` and `stopIdx`: before that point the run
state is `isImporting = true, forceStop = false`; from it on, the state
`stopTransition` leaves behind. -/
def controlAt (stopIdx i : Nat) : ImportControl :=
  if i < stopIdx then { isImporting := true, forceStop := false }
  else stopTransition { isImporting := true, forceStop := false }

/-- Translation of the `for (const page of allPages)` loop: check
`isImporting` at the top of each iteration (break when cleared), run the
property mapper and renderer, and enqueue the record's file write unless
`forceStop` is set. `none` models an uncaught per-record exception
aborting the run. -/
def runLoop (cfg : Config) (fetch : String → Page)
    (dl : String → Except String Unit) :
    List Page → Nat → Nat → Option RunResult
  | [], _, _ => some ⟨[], []⟩
  | p :: rest, i, stopIdx =>
    if (controlAt stopIdx i).isImporting then
      match processPage cfg fetch dl p with
      | none => none
      | some tc =>
        match runLoop cfg fetch dl rest (i + 1) stopIdx with
        | none => none
        | some r =>
          some ⟨p.id :: r.mapped,
            (if (controlAt stopIdx i).forceStop then []
             else [(cfg.vaultPath ++ "/" ++ cfg.folderName ++ "/" ++ tc.1 ++
               ".md", tc.2)]) ++ r.enqueued⟩
    else some ⟨[], []⟩

/-- Translation of `createMarkdownFiles` for a run whose stop event (if
any) fires between records `stopIdx - 1` and `stopIdx`. -/
def createMarkdownFiles (cfg : Config) (fetch : String → Page)
    (dl : String → Except String Unit) (pages : List Page) (stopIdx : Nat) :
    Option RunResult :=
  runLoop cfg fetch dl pages 0 stopIdx

/-- The writes that actually execute. `writeFilePromise` starts
`fs.writeFile` the moment the promise is constructed (at push time), so
every enqueued write runs to completion whether or not the trailing
`Promise.all` is awaited — skipping the await on force-stop does not
cancel them. -/
def writesExecuted (r : RunResult) : List (String × String) := r.enqueued

/-! ## Renderer step lemmas -/

theorem renderBlocks_nil (imp stop : Bool) (vp sub prev : String) (c : Nat)
    (content : String) :
    renderBlocks imp stop vp sub [] prev c content = ⟨content, [], []⟩ := by
  rw [renderBlocks]

theorem renderBlocks_bulleted (imp : Bool) (vp sub id : String)
    (runs : List RichText) (rest : List Block) (prev : String) (c : Nat)
    (content : String) (h : runs ≠ []) :
    renderBlocks imp false vp sub
      (Block.node id (BlockKind.bulleted_list_item runs) false [] :: rest)
      prev c content =
    renderBlocks imp false vp sub rest "bulleted_list_item"
      (resetCounter prev "bulleted_list_item" c)
      (content ++ "- " ++ renderRuns runs ++ "\n") := by
  rw [renderBlocks]
  simp [h]

theorem renderBlocks_numbered (imp : Bool) (vp sub id : String)
    (runs : List RichText) (rest : List Block) (prev : String) (c : Nat)
    (content : String) (h : runs ≠ []) :
    renderBlocks imp false vp sub
      (Block.node id (BlockKind.numbered_list_item runs) false [] :: rest)
      prev c content =
    renderBlocks imp false vp sub rest "numbered_list_item"
      (resetCounter prev "numbered_list_item" c + 1)
      (content ++ natToString (resetCounter prev "numbered_list_item" c)
        ++ ". " ++ renderRuns runs ++ "\n") := by
  rw [renderBlocks]
  simp [h]

theorem renderBlocks_child_page_noSub (vp sub id t : String)
    (kids rest : List Block) (prev : String) (c : Nat) (content : String)
    (ht : t ≠ "") :
    renderBlocks false false vp sub
      (Block.node id (BlockKind.child_page t) false kids :: rest)
      prev c content =
    renderBlocks false false vp sub rest "child_page"
      (resetCounter prev "child_page" c)
      (content ++ "[" ++ t ++ "](https://www.notion.so/" ++ stripHyphens id ++
        ")\n\n") := by
  rw [renderBlocks]
  simp [ht]

theorem renderBlocks_child_page_noSub_hc (vp sub id t : String)
    (kids rest : List Block) (prev : String) (c : Nat) (content : String)
    (ht : t ≠ "") :
    renderBlocks false false vp sub
      (Block.node id (BlockKind.child_page t) true kids :: rest)
      prev c content =
    ⟨(renderBlocks false false vp sub rest "child_page"
        (resetCounter prev "child_page" c)
        ((content ++ "[" ++ t ++ "](https://www.notion.so/" ++ stripHyphens id ++
            ")\n\n") ++
          (renderBlocks false false vp sub kids "child_page"
            (resetCounter prev "child_page" c) "").content)).content,
     id :: (renderBlocks false false vp sub kids "child_page"
        (resetCounter prev "child_page" c) "").fetched ++
       (renderBlocks false false vp sub rest "child_page"
        (resetCounter prev "child_page" c)
        ((content ++ "[" ++ t ++ "](https://www.notion.so/" ++ stripHyphens id ++
            ")\n\n") ++
          (renderBlocks false false vp sub kids "child_page"
            (resetCounter prev "child_page" c) "").content)).fetched,
     (renderBlocks false false vp sub kids "child_page"
        (resetCounter prev "child_page" c) "").writes ++
       (renderBlocks false false vp sub rest "child_page"
        (resetCounter prev "child_page" c)
        ((content ++ "[" ++ t ++ "](https://www.notion.so/" ++ stripHyphens id ++
            ")\n\n") ++
          (renderBlocks false false vp sub kids "child_page"
            (resetCounter prev "child_page" c) "").content)).writes⟩ := by
  rw [renderBlocks]
  simp [ht]

theorem renderBlocks_noSub_writes_aux (vp sub : String) :
    ∀ n (bs : List Block), sizeOf bs ≤ n → ∀ (stop : Bool) (prev : String)
      (c : Nat) (content : String),
      (renderBlocks false stop vp sub bs prev c content).writes = [] := by
  intro n
  induction n using Nat.strong_induction_on with
  | _ n ih =>
    intro bs hsz stop prev c content
    match bs with
    | [] => rw [renderBlocks]
    | Block.node id kind hc kids :: rest =>
      have hks : sizeOf kids < sizeOf (Block.node id kind hc kids :: rest) := by
        simp; try omega
      have hrs : sizeOf rest < sizeOf (Block.node id kind hc kids :: rest) := by
        simp; try omega
      have h1 : ∀ (st : Bool) (p : String) (c' : Nat) (ct : String),
          (renderBlocks false st vp sub kids p c' ct).writes = [] :=
        fun st p c' ct => ih (sizeOf kids) (by omega) kids (le_refl _) st p c' ct
      have h2 : ∀ (st : Bool) (p : String) (c' : Nat) (ct : String),
          (renderBlocks false st vp sub rest p c' ct).writes = [] :=
        fun st p c' ct => ih (sizeOf rest) (by omega) rest (le_refl _) st p c' ct
      cases kind with
      | bulleted_list_item runs =>
        cases stop with
        | true => simp [renderBlocks]
        | false =>
          rw [renderBlocks]
          cases hc <;> simp [h1, h2]
      | numbered_list_item runs =>
        cases stop with
        | true => simp [renderBlocks]
        | false =>
          rw [renderBlocks]
          cases hc <;> simp [h1, h2]
      | child_page t =>
        cases stop with
        | true => simp [renderBlocks]
        | false =>
          rw [renderBlocks]
          cases hc <;> by_cases ht : t = "" <;> simp [h1, h2, ht]
      | other =>
        cases stop with
        | true => simp [renderBlocks]
        | false =>
          rw [renderBlocks]
          cases hc <;> simp [h1, h2]

theorem renderBlocks_noSub_writes (vp sub : String) (bs : List Block)
    (stop : Bool) (prev : String) (c : Nat) (content : String) :
    (renderBlocks false stop vp sub bs prev c content).writes = [] :=
  renderBlocks_noSub_writes_aux vp sub (sizeOf bs) bs (le_refl _) stop prev c content

/-- A child_page block whose `has_children` flag is set (its page has
content), rendered while subpage import is disabled. -/
def childPageDemo : Block :=
  Block.node "abc-def" (BlockKind.child_page "Child") true
    [Block.node "x" (BlockKind.bulleted_list_item [⟨"hi", false, false, none⟩])
      false []]

/-- Claim C4 counterexample: with subpage import disabled, rendering a
child_page block whose `has_children` flag is set still fetches the child
page's block children (the generic `has_children` recursion runs on the
very same id), so "performs no recursive fetch of the child page's
content" fails. -/
theorem childPage_disabled_still_fetches :
    (renderBlocks false false "vault" "subpages" [childPageDemo] "null" 1 "").fetched
      = ["abc-def"] ∧
    (renderBlocks false false "vault" "subpages" [childPageDemo] "null" 1 "").fetched
      ≠ [] := by
  have h : (renderBlocks false false "vault" "subpages" [childPageDemo]
      "null" 1 "").fetched = ["abc-def"] := by
    rw [childPageDemo, renderBlocks_child_page_noSub_hc _ _ _ _ _ _ _ _ _ (by decide)]
    rw [renderBlocks_bulleted _ _ _ _ _ _ _ _ _ (by decide), renderBlocks_nil,
      renderBlocks_nil]
    rfl
  exact ⟨h, by rw [h]; decide⟩

/-- Claim C4 (amended): with subpage import disabled, a child_page block
emits the external markdown link to the hosted page URL (id with hyphens
stripped, joined to the host URL) and no subpage file write ever occurs;
when its `has_children` flag is clear no fetch occurs for it either — but
when `has_children` is set, the generic children recursion still fetches
and inlines the child page's blocks. -/
theorem childPage_disabled_link_no_write (vp sub id t : String)
    (kids rest : List Block) (prev : String) (c : Nat) (content : String)
    (ht : t ≠ "") :
    (renderBlocks false false vp sub
        (Block.node id (BlockKind.child_page t) false kids :: rest)
        prev c content =
      renderBlocks false false vp sub rest "child_page"
        (resetCounter prev "child_page" c)
        (content ++ "[" ++ t ++ "](https://www.notion.so/" ++ stripHyphens id ++
          ")\n\n")) ∧
    (∀ (stop : Bool) (bs : List Block) (prev' : String) (c' : Nat)
        (content' : String),
      (renderBlocks false stop vp sub bs prev' c' content').writes = []) := by
  exact ⟨renderBlocks_child_page_noSub vp sub id t kids rest prev c content ht,
    fun stop bs prev' c' content' =>
      renderBlocks_noSub_writes vp sub bs stop prev' c' content'⟩

/-- Witness for `childPage_disabled_link_no_write` at a concrete block. -/
theorem childPage_disabled_link_no_write_witness :
    renderBlocks false false "v" "s"
        [Block.node "ab-cd" (BlockKind.child_page "C") false []] "null" 1 "" =
      renderBlocks false false "v" "s" [] "child_page"
        (resetCounter "null" "child_page" 1)
        ("" ++ "[" ++ "C" ++ "](https://www.notion.so/" ++ stripHyphens "ab-cd" ++
          ")\n\n") :=
  (childPage_disabled_link_no_write "v" "s" "ab-cd" "C" [] [] "null" 1 ""
    (by decide)).1

/-- Claim C6: for the block sequence [numbered, numbered, bulleted,
numbered] the rendered prefixes are `1.`, `2.`, `-`, then `1.` again; and
in general the numbered-list counter resets to 1 exactly when the
block-type sequence transitions away from `numbered_list_item`. -/
theorem numbered_counter_resets :
    (renderBlocks false false "v" "s"
      [Block.node "i1" (BlockKind.numbered_list_item [⟨"a", false, false, none⟩])
        false [],
       Block.node "i2" (BlockKind.numbered_list_item [⟨"b", false, false, none⟩])
        false [],
       Block.node "i3" (BlockKind.bulleted_list_item [⟨"c", false, false, none⟩])
        false [],
       Block.node "i4" (BlockKind.numbered_list_item [⟨"d", false, false, none⟩])
        false []]
      "null" 1 "").content = "1. a\n2. b\n- c\n1. d\n" ∧
    (∀ (prev tn : String) (c : Nat), prev = "numbered_list_item" →
      tn ≠ "numbered_list_item" → resetCounter prev tn c = 1) := by
  constructor
  · rw [renderBlocks_numbered _ _ _ _ _ _ _ _ _ (by decide),
      renderBlocks_numbered _ _ _ _ _ _ _ _ _ (by decide),
      renderBlocks_bulleted _ _ _ _ _ _ _ _ _ (by decide),
      renderBlocks_numbered _ _ _ _ _ _ _ _ _ (by decide),
      renderBlocks_nil]
    rfl
  · intro prev tn c h1 h2
    rw [resetCounter, if_pos ⟨h1, h2⟩]

/-- Witness for `numbered_counter_resets`: the reset hypothesis discharged
at the concrete transition numbered-to-bulleted. -/
theorem numbered_counter_resets_witness :
    resetCounter "numbered_list_item" "bulleted_list_item" 7 = 1 :=
  numbered_counter_resets.2 "numbered_list_item" "bulleted_list_item" 7 rfl
    (by decide)

/-! ## Relation display-name resolution (claim C5) -/

/-- A referenced record whose title-kind property is named `"Task"`, not
`"Name"`. -/
def pageTaskTitled : Page :=
  ⟨"r1", [("Task", PropValue.title [⟨"Alice", false, false, none⟩])], []⟩

/-- Claim C5 counterexample: the source reads the property literally named
`"Name"`, not whichever property has kind title. On a referenced record
whose title property is named `"Task"`, extraction fails (a thrown
`TypeError`, modelled as `none`) while the spec's rule yields `"Alice"`. -/
theorem extractRelatedName_not_titleKind :
    extractRelatedName pageTaskTitled = none ∧
    specTitleDisplayName pageTaskTitled = some "Alice" ∧
    extractRelatedName pageTaskTitled ≠ specTitleDisplayName pageTaskTitled := by
  refine ⟨rfl, rfl, ?_⟩
  decide

/-- Claim C5 (amended): for every non-empty relation property the mapper
fetches each referenced record and reads its display name from the
property literally named `"Name"` (first run of its title payload); when
every lookup resolves, exactly those names appear in the emitted
semantic-link line, relation-list fragment, or inline bare-name list. -/
theorem relation_names_from_Name_property (cfg : Config) (fetch : String → Page)
    (dl : String → Except String Unit) (key : String) (ids : List String)
    (names : List String) (h1 : ids ≠ [])
    (h2 : ids.mapM (fun i => extractRelatedName (fetch i)) = some names) :
    propertyLine cfg fetch dl key (PropValue.relation ids) =
      some ⟨(if cfg.createRelationContentPage then "" else relationInline key names),
        (if cfg.createSemanticLinking then [semanticLine key names] else []),
        (if cfg.createRelationContentPage then [relationFragment key names] else []),
        none⟩ := by
  rw [propertyLine]
  rw [if_pos h1, h2]
  by_cases hs : cfg.createSemanticLinking <;>
    by_cases hr : cfg.createRelationContentPage <;>
      simp [hs, hr]

/-- Witness for `relation_names_from_Name_property` at a concrete record
set. -/
theorem relation_names_from_Name_property_witness :
    propertyLine
      { attachPageId := true, importPageContent := false,
        createRelationContentPage := true, enabledProperties := [],
        createSemanticLinking := true, attachmentPath := "att",
        squashDateNamesForDataview := false, subpagesPath := "sp",
        importSubpages := false, vaultPath := "v", folderName := "f",
        existingFiles := [], now := 0 }
      (fun _ => ⟨"q", [("Name", PropValue.title [⟨"Bob", false, false, none⟩])], []⟩)
      (fun _ => Except.ok ()) "Rel" (PropValue.relation ["i1"]) =
    some ⟨"", [semanticLine "Rel" ["Bob"]], [relationFragment "Rel" ["Bob"]], none⟩ :=
  relation_names_from_Name_property _ _ _ "Rel" ["i1"] ["Bob"] (by decide) rfl

/-! ## Relation emission shapes (claim C3) -/

/-- The oracle resolving the two related records of the C3 scenario. -/
def fetchAB : String → Page := fun i =>
  if i = "idA" then ⟨"qa", [("Name", PropValue.title [⟨"A", false, false, none⟩])], []⟩
  else ⟨"qb", [("Name", PropValue.title [⟨"B", false, false, none⟩])], []⟩

def dlOk : String → Except String Unit := fun _ => Except.ok ()

/-- C3 run configuration with the two relation flags as given. -/
def cfgRel (sem rel : Bool) : Config :=
  { attachPageId := true, importPageContent := false,
    createRelationContentPage := rel, enabledProperties := [],
    createSemanticLinking := sem, attachmentPath := "att",
    squashDateNamesForDataview := false, subpagesPath := "sp",
    importSubpages := false, vaultPath := "v", folderName := "f",
    existingFiles := [], now := 0 }

/-- A record with the single relation property of the C3 scenario. -/
def relPage : Page :=
  ⟨"p1", [("Related Projects", PropValue.relation ["idA", "idB"])], []⟩

/-- Claim C3 counterexample: with `createSemanticLinking = true` and
`createRelationContentPage = false`, the record's output contains the
inline bare-name YAML list for the relation property in addition to the
`Related_Projects:: [[A]], [[B]]` line — not "exactly the one line", which
would be the second output below. -/
theorem semanticLinking_also_emits_inline :
    processPage (cfgRel true false) fetchAB dlOk relPage =
      some ("empty_p1",
        "---\nRelated Projects:\n  - A\n  - B\n---\nRelated_Projects:: [[A]], [[B]]\n") ∧
    processPage (cfgRel true false) fetchAB dlOk relPage ≠
      some ("empty_p1", "---\n---\nRelated_Projects:: [[A]], [[B]]\n") := by
  constructor
  · decide
  · decide

/-- Claim C3 (amended): the relation mapper emits the double-colon
semantic-link line when semantic linking is enabled; independently, when
relation-as-subpage-link is disabled the plain bare-name YAML list is
still emitted inline in front matter (even with semantic linking on); at
most one of the two post-front-matter fragment kinds is appended, the
semantic-linking fragment taking priority; and with `createSemanticLinking
= true` and `createRelationContentPage = true` the output for key
`"Related Projects"` with names `["A", "B"]` is exactly the one line
`Related_Projects:: [[A]], [[B]]` with zero YAML-list relation fragments. -/
theorem relation_emission_shapes :
    processPage (cfgRel true true) fetchAB dlOk relPage =
      some ("empty_p1", "---\n---\nRelated_Projects:: [[A]], [[B]]\n") ∧
    semanticLine "Related Projects" ["A", "B"] =
      "Related_Projects:: [[A]], [[B]]\n" ∧
    processPage (cfgRel true false) fetchAB dlOk relPage =
      some ("empty_p1",
        "---\nRelated Projects:\n  - A\n  - B\n---\nRelated_Projects:: [[A]], [[B]]\n") ∧
    (∀ semLinks relLinks : List String, semLinks ≠ [] →
      appendFragments true semLinks relLinks = joinSep "," semLinks) ∧
    (∀ relLinks : List String,
      appendFragments true [] relLinks = appendFragments false [] relLinks) := by
  refine ⟨by decide, by decide, by decide, ?_, ?_⟩
  · intro semLinks relLinks h
    rw [appendFragments, if_pos ⟨rfl, h⟩]
  · intro relLinks
    rw [appendFragments, appendFragments]
    simp

/-- Witness for `relation_emission_shapes`: the priority hypothesis
discharged at a concrete fragment pair. -/
theorem relation_emission_shapes_witness :
    appendFragments true ["s\n"] ["r\n"] = joinSep "," ["s\n"] :=
  relation_emission_shapes.2.2.2.1 ["s\n"] ["r\n"] (by decide)

/-! ## Date and created_time rendering (claim C7) -/

/-- A run configuration with date-name squashing enabled. -/
def cfgSquash : Config :=
  { attachPageId := true, importPageContent := false,
    createRelationContentPage := false, enabledProperties := [],
    createSemanticLinking := false, attachmentPath := "att",
    squashDateNamesForDataview := true, subpagesPath := "sp",
    importSubpages := false, vaultPath := "v", folderName := "f",
    existingFiles := [], now := 0 }

/-- Claim C7: a date property with a present start value is emitted as its
UTC ISO-8601 rendering (likewise created_time); a missing date yields the
literal `null`; under `squashDateNamesForDataview` the key is rewritten by
splitting on spaces, capitalizing each word, and concatenating — so `"Due
Date"` with value 2024-01-05 yields `DueDate: 2024-01-05T00:00:00.000Z`. -/
theorem date_iso_rendering (cfg : Config) (fetch : String → Page)
    (dl : String → Except String Unit)
    (h : cfg.squashDateNamesForDataview = true) :
    (∀ (key : String) (d : DateTime),
      propertyLine cfg fetch dl key (PropValue.date (some d)) =
        some ⟨safeKey (squashKey key) ++ ": " ++ toISOString d ++ "\n",
          [], [], none⟩) ∧
    (∀ key : String,
      propertyLine cfg fetch dl key (PropValue.date none) =
        some ⟨safeKey (squashKey key) ++ ": null\n", [], [], none⟩) ∧
    (∀ (key : String) (d : DateTime),
      propertyLine cfg fetch dl key (PropValue.created_time (some d)) =
        some ⟨safeKey key ++ ": " ++ toISOString d ++ "\n", [], [], none⟩) ∧
    squashKey "Due Date" = "DueDate" ∧
    propertyLine cfgSquash (fun _ => ⟨"q", [], []⟩) (fun _ => Except.ok ())
        "Due Date" (PropValue.date (some ⟨2024, 1, 5, 0, 0, 0, 0⟩)) =
      some ⟨"DueDate: 2024-01-05T00:00:00.000Z\n", [], [], none⟩ := by
  refine ⟨?_, ?_, ?_, by decide, by decide⟩
  · intro key d
    simp [propertyLine, h]
  · intro key
    simp [propertyLine, h]
  · intro key d
    simp [propertyLine]

/-- Witness for `date_iso_rendering`: the squash hypothesis discharged at
`cfgSquash`, evaluated on the spec's example date. -/
theorem date_iso_rendering_witness :
    propertyLine cfgSquash (fun _ => ⟨"q", [], []⟩) (fun _ => Except.ok ())
        "Due Date" (PropValue.date (some ⟨2024, 1, 5, 0, 0, 0, 0⟩)) =
      some ⟨safeKey (squashKey "Due Date") ++ ": " ++
        toISOString ⟨2024, 1, 5, 0, 0, 0, 0⟩ ++ "\n", [], [], none⟩ :=
  (date_iso_rendering cfgSquash (fun _ => ⟨"q", [], []⟩) (fun _ => Except.ok ())
    rfl).1 "Due Date" ⟨2024, 1, 5, 0, 0, 0, 0⟩

/-! ## Number-zero falsiness (claim C10) -/

/-- Claim C10: a number property whose value is 0 falls into the JS falsy
branch, so the mapper emits `key: ` with an empty value — identical to the
output for an absent number, and not `key: 0`. -/
theorem number_zero_emits_empty (cfg : Config) (fetch : String → Page)
    (dl : String → Except String Unit) (key : String) :
    propertyLine cfg fetch dl key (PropValue.number (some 0)) =
      propertyLine cfg fetch dl key (PropValue.number none) ∧
    propertyLine cfg fetch dl key (PropValue.number (some 0)) =
      some ⟨safeKey key ++ ": \n", [], [], none⟩ ∧
    propertyLine cfg fetch dl key (PropValue.number (some 0)) ≠
      some ⟨safeKey key ++ ": 0\n", [], [], none⟩ := by
  refine ⟨rfl, rfl, ?_⟩
  intro h
  rw [propertyLine] at h
  simp only [Option.some.injEq, PropOut.mk.injEq, if_true, ite_true] at h
  have hlen := congrArg String.length h.1
  simp only [String.length_append] at hlen
  have h3 : (": \n" : String).length = 3 := by decide
  have h4 : (": 0\n" : String).length = 4 := by decide
  omega

/-! ## Per-file failure isolation (claim C9) -/

theorem string_foldl_append (xs : List String) :
    ∀ init : String, xs.foldl (· ++ ·) init = init ++ String.join xs := by
  induction xs with
  | nil =>
    intro init
    simp [String.join]
  | cons x xs ih =>
    intro init
    show xs.foldl (· ++ ·) (init ++ x) = init ++ String.join (x :: xs)
    rw [ih (init ++ x)]
    show init ++ x ++ String.join xs = init ++ List.foldl (· ++ ·) "" (x :: xs)
    rw [show List.foldl (· ++ ·) "" (x :: xs) = List.foldl (· ++ ·) ("" ++ x) xs from rfl]
    rw [ih ("" ++ x)]
    simp [String.append_assoc]

theorem string_join_cons (x : String) (xs : List String) :
    String.join (x :: xs) = x ++ String.join xs := by
  show List.foldl (· ++ ·) ("" ++ x) xs = x ++ String.join xs
  rw [string_foldl_append xs ("" ++ x)]
  simp

theorem string_join_append (a b : List String) :
    String.join (a ++ b) = String.join a ++ String.join b := by
  induction a with
  | nil => simp [String.join]
  | cons x xs ih =>
    rw [List.cons_append, string_join_cons, string_join_cons, ih,
      String.append_assoc]

/-- Claim C9: a failure raised while processing one file entry is caught
for that entry alone and becomes a `  - Failed: <name> (<error>)` line;
the remaining entries are still processed, and the remaining properties
of the record are still mapped (the record is not aborted). -/
theorem files_failure_isolated :
    (∀ (dl : String → Except String Unit) (ap : String) (now : Nat)
        (pre post : List FileEntry) (f : FileEntry) (msg : String),
      tryDownloadEntry dl ap now f = Except.error msg →
      filesLoop dl ap now (pre ++ f :: post) =
        filesLoop dl ap now pre ++ failedLine f msg ++ filesLoop dl ap now post) ∧
    (∀ (cfg : Config) (fetch : String → Page) (dl : String → Except String Unit)
        (key : String) (entries : List FileEntry)
        (rest : List (String × PropValue)),
      lookupEnabled cfg.enabledProperties key ≠ some false →
      buildProps cfg fetch dl ((key, PropValue.files entries) :: rest) =
        (buildProps cfg fetch dl rest).map (fun t =>
          combinePropOut
            ⟨safeKey key ++ ":\n" ++
              (if entries ≠ [] then filesLoop dl cfg.attachmentPath cfg.now entries
               else "  []\n"), [], [], none⟩ t)) := by
  constructor
  · intro dl ap now pre post f msg h
    rw [filesLoop, filesLoop, filesLoop]
    rw [List.map_append, List.map_cons, string_join_append, string_join_cons]
    rw [show processFileEntry dl ap now f = failedLine f msg from by
      rw [processFileEntry, h]]
    rw [String.append_assoc]
  · intro cfg fetch dl key entries rest h
    rw [buildProps, if_neg h]
    rcases hr : buildProps cfg fetch dl rest with _ | t <;>
      simp [propertyLine, hr]

/-- Witness for `files_failure_isolated`: both hypotheses discharged at a
concrete failing download and a concrete record tail. -/
theorem files_failure_isolated_witness :
    filesLoop (fun _ => Except.error "net down") "att" 0
        ([⟨"file", none, some "https://h/a.png", some "ok.png"⟩] ++
          ⟨"file", none, some "https://h/b.png", some "bad.png"⟩ ::
          [⟨"file", none, some "https://h/c.png", some "ok2.png"⟩]) =
      filesLoop (fun _ => Except.error "net down") "att" 0
          [⟨"file", none, some "https://h/a.png", some "ok.png"⟩] ++
        failedLine ⟨"file", none, some "https://h/b.png", some "bad.png"⟩ "net down" ++
        filesLoop (fun _ => Except.error "net down") "att" 0
          [⟨"file", none, some "https://h/c.png", some "ok2.png"⟩] ∧
    buildProps (cfgRel false false) fetchAB dlOk
        ([("Files", PropValue.files [])] ++ [("N", PropValue.number (some 3))]) =
      (buildProps (cfgRel false false) fetchAB dlOk [("N", PropValue.number (some 3))]).map
        (fun t => combinePropOut ⟨safeKey "Files" ++ ":\n" ++ "  []\n", [], [], none⟩ t) := by
  constructor
  · exact files_failure_isolated.1 (fun _ => Except.error "net down") "att" 0
      [⟨"file", none, some "https://h/a.png", some "ok.png"⟩]
      [⟨"file", none, some "https://h/c.png", some "ok2.png"⟩]
      ⟨"file", none, some "https://h/b.png", some "bad.png"⟩ "net down" rfl
  · have := files_failure_isolated.2 (cfgRel false false) fetchAB dlOk "Files" []
      [("N", PropValue.number (some 3))] (by decide)
    simpa using this

/-! ## Stop-flag semantics of the record loop (claim C2) -/

/-- The path of the write enqueued for a processed record. -/
def recordWrite (cfg : Config) (tc : String × String) : String × String :=
  (cfg.vaultPath ++ "/" ++ cfg.folderName ++ "/" ++ tc.1 ++ ".md", tc.2)

theorem runLoop_take_spec (cfg : Config) (fetch : String → Page)
    (dl : String → Except String Unit) :
    ∀ (pages : List Page) (i stopIdx : Nat),
      (∀ p ∈ pages.take (stopIdx - i), (processPage cfg fetch dl p).isSome) →
      runLoop cfg fetch dl pages i stopIdx =
        some ⟨(pages.take (stopIdx - i)).map Page.id,
          (pages.take (stopIdx - i)).filterMap
            (fun p => (processPage cfg fetch dl p).map (recordWrite cfg))⟩ := by
  intro pages
  induction pages with
  | nil =>
    intro i stopIdx h
    simp [runLoop]
  | cons p rest ih =>
    intro i stopIdx h
    rw [runLoop]
    by_cases hlt : i < stopIdx
    · have himp : (controlAt stopIdx i).isImporting = true := by
        simp [controlAt, hlt]
      have hfs : (controlAt stopIdx i).forceStop = false := by
        simp [controlAt, hlt]
      have htake : stopIdx - i = (stopIdx - (i + 1)) + 1 := by omega
      have hp : (processPage cfg fetch dl p).isSome := by
        apply h p
        rw [htake, List.take_succ_cons]
        exact List.mem_cons_self p _
      obtain ⟨tc, htc⟩ := Option.isSome_iff_exists.mp hp
      have hrec := ih (i + 1) stopIdx (fun q hq => by
        apply h q
        rw [htake, List.take_succ_cons]
        exact List.mem_cons_of_mem p hq)
      rw [himp, if_pos rfl, htc, hrec, htake, List.take_succ_cons]
      simp [hfs, htc, recordWrite]
    · have himp : (controlAt stopIdx i).isImporting = false := by
        simp [controlAt, hlt, stopTransition]
      have htake : stopIdx - i = 0 := by omega
      rw [himp, htake]
      simp

/-- Claim C2: for a run whose stop event (`forceStop := true`, fired by the
stop handler together with `isImporting := false`) lands between records
`stopIdx - 1` and `stopIdx`: exactly the records before the event are
property-mapped, exactly their writes are enqueued, no record from
`stopIdx` on begins property mapping, and every enqueued write still
executes (`writesExecuted` — writes start at enqueue time; the skipped
final await does not cancel them). -/
theorem forceStop_between_records (cfg : Config) (fetch : String → Page)
    (dl : String → Except String Unit) (pages : List Page) (stopIdx : Nat)
    (h : ∀ p ∈ pages.take stopIdx, (processPage cfg fetch dl p).isSome) :
    ∃ r, createMarkdownFiles cfg fetch dl pages stopIdx = some r ∧
      r.mapped = (pages.take stopIdx).map Page.id ∧
      r.enqueued = (pages.take stopIdx).filterMap
        (fun p => (processPage cfg fetch dl p).map (recordWrite cfg)) ∧
      writesExecuted r = r.enqueued := by
  have h0 : stopIdx - 0 = stopIdx := by omega
  refine ⟨⟨(pages.take stopIdx).map Page.id,
    (pages.take stopIdx).filterMap
      (fun p => (processPage cfg fetch dl p).map (recordWrite cfg))⟩, ?_, rfl, rfl, rfl⟩
  rw [createMarkdownFiles, runLoop_take_spec cfg fetch dl pages 0 stopIdx
    (by rw [h0]; exact h), h0]

/-- Witness for `forceStop_between_records`: a two-record run stopped
between the records. -/
theorem forceStop_between_records_witness :
    ∃ r, createMarkdownFiles (cfgRel false false) fetchAB dlOk
        [⟨"p1", [("N", PropValue.number (some 1))], []⟩,
         ⟨"p2", [("N", PropValue.number (some 2))], []⟩] 1 = some r ∧
      r.mapped = ([⟨"p1", [("N", PropValue.number (some 1))], []⟩,
         ⟨"p2", [("N", PropValue.number (some 2))], []⟩].take 1).map Page.id ∧
      r.enqueued = ([⟨"p1", [("N", PropValue.number (some 1))], []⟩,
         ⟨"p2", [("N", PropValue.number (some 2))], []⟩].take 1).filterMap
        (fun p => (processPage (cfgRel false false) fetchAB dlOk p).map
          (recordWrite (cfgRel false false))) ∧
      writesExecuted r = r.enqueued :=
  forceStop_between_records (cfgRel false false) fetchAB dlOk
    [⟨"p1", [("N", PropValue.number (some 1))], []⟩,
     ⟨"p2", [("N", PropValue.number (some 2))], []⟩] 1
    (by
      intro p hp
      simp only [List.take_succ_cons, List.take_zero, List.mem_singleton] at hp
      subst hp
      decide)

end VaultMigrate
